import Mathlib

/-
Verification development for the LeagueScraper repository
(backend/league/scrapers). The Python sources are shallowly embedded:
strings are `List Char`, Python exceptions become `Except`/`Option`
results, and database / network effects become explicit state passing
or effect traces. Each embedded definition names the source function it
models.
-/

set_option autoImplicit false

namespace LeagueScraper

/-! ## Python string primitives -/

/-- Characters removed by Python's default `str.strip()` (ASCII whitespace). -/
def isPySpace (c : Char) : Bool :=
  c = ' ' || c = '\t' || c = '\n' || c = '\r' || c = '\x0b' || c = '\x0c'

/-- Python `str.strip()`: drop leading and trailing whitespace. -/
def pyStrip (s : List Char) : List Char :=
  ((s.dropWhile isPySpace).reverse.dropWhile isPySpace).reverse

/-- Python `str.replace(old, "")` for a one-character `old`: every occurrence
of the character is removed. -/
def removeAll (c : Char) (s : List Char) : List Char :=
  s.filter (fun a => a ≠ c)

/-- Python `str.split(sep)` for a one-character separator.  Matches Python's
semantics on the empty string: `"".split("-") == [""]`. -/
def splitOnChar (sep : Char) : List Char → List (List Char)
  | [] => [[]]
  | c :: rest =>
    let r := splitOnChar sep rest
    if c = sep then [] :: r
    else
      match r with
      | [] => [[c]]
      | p :: ps => (c :: p) :: ps

/-- ASCII decimal digit test. -/
def isPyDigit (c : Char) : Bool := '0' ≤ c && c ≤ '9'

/-- Numeric value of one digit character. -/
def digitVal (c : Char) : Nat := c.toNat - '0'.toNat

/-- Value written by a list of decimal digits (most significant first). -/
def digitsVal (l : List Char) : Nat :=
  l.foldl (fun a c => 10 * a + digitVal c) 0

/-- Embedding of Python `int(str)`: optional surrounding whitespace, an
optional sign, then one or more ASCII digits.  Returns `none` where the
constructor raises `ValueError` (underscore grouping and non-ASCII digits
are not modelled). -/
def pyInt (s : List Char) : Option Int :=
  match pyStrip s with
  | [] => none
  | c :: ds =>
    if c = '+' then
      if ds ≠ [] && ds.all isPyDigit then some (digitsVal ds : Int) else none
    else if c = '-' then
      if ds ≠ [] && ds.all isPyDigit then some (-(digitsVal ds : Int)) else none
    else
      if (c :: ds).all isPyDigit then some (digitsVal (c :: ds) : Int) else none

/-- Consume one optional sign; returns (isNegative, rest). -/
def parseSign (s : List Char) : Bool × List Char :=
  match s with
  | c :: r => if c = '-' then (true, r) else if c = '+' then (false, r) else (false, s)
  | [] => (false, [])

/-- Parse the mantissa of a decimal literal: `digits [. digits]` with at least
one digit overall.  Returns the exact value and the unconsumed rest. -/
def decMantissa (s : List Char) : Option (Rat × List Char) :=
  let ip := s.takeWhile isPyDigit
  let r1 := s.dropWhile isPyDigit
  match r1 with
  | '.' :: r2 =>
    let fp := r2.takeWhile isPyDigit
    let r3 := r2.dropWhile isPyDigit
    if ip = [] && fp = [] then none
    else some ((digitsVal ip : Rat) + (digitsVal fp : Rat) / (10 : Rat) ^ fp.length, r3)
  | _ => if ip = [] then none else some ((digitsVal ip : Rat), r1)

/-- Embedding of `decimal.Decimal(str)` on finite numeric literals:
`[sign] digits [. digits] [e|E [sign] digits]`, surrounding whitespace
allowed; the exact value is kept as a rational.  Returns `none` where the
constructor raises `decimal.InvalidOperation` (special values NaN/Infinity
and underscore grouping are not modelled). -/
def pyDecimal (s : List Char) : Option Rat :=
  match parseSign (pyStrip s) with
  | (neg, t) =>
    match decMantissa t with
    | none => none
    | some (m, r1) =>
      let v := if neg then -m else m
      match r1 with
      | [] => some v
      | c :: r2 =>
        if c = 'e' || c = 'E' then
          match parseSign r2 with
          | (eneg, r3) =>
            let ds := r3.takeWhile isPyDigit
            let rest := r3.dropWhile isPyDigit
            if ds = [] || rest ≠ [] then none
            else
              some (v * (10 : Rat) ^ (if eneg then -(digitsVal ds : Int) else (digitsVal ds : Int)))
        else none

/-- Embedding of Python `float(str)` on finite decimal literals.  The value is
kept exact as a rational; the rounding to a binary double is not modelled (no
claim compares float results numerically), nor are `inf`/`nan` literals. -/
def pyFloat (s : List Char) : Option Rat := pyDecimal s

/-- Python `int(x)` on a float value: truncation toward zero. -/
def pyTrunc (x : Rat) : Int := if 0 ≤ x then ⌊x⌋ else ⌈x⌉

/-- Python `str.lower()` on ASCII letters. -/
def pyLowerChar (c : Char) : Char :=
  if 'A' ≤ c && c ≤ 'Z' then Char.ofNat (c.toNat + 32) else c

/-- Python `str.lower()`. -/
def pyLower (s : List Char) : List Char := s.map pyLowerChar

/-! ## Cell coercers

`ChampionScraper._parse_*` and `TeamScraper._parse_*` from
`champion_scraper.py` / `team_scraper.py`. -/

/-- The Python exceptions that matter to the embedded code paths. -/
inductive PyErr
  | invalidOperation
  deriving DecidableEq

instance {ε α : Type} [DecidableEq ε] [DecidableEq α] : DecidableEq (Except ε α) := fun x y =>
  match x, y with
  | .ok a, .ok b =>
    if h : a = b then isTrue (by rw [h]) else isFalse (by intro hh; cases hh; exact h rfl)
  | .error a, .error b =>
    if h : a = b then isTrue (by rw [h]) else isFalse (by intro hh; cases hh; exact h rfl)
  | .ok _, .error _ => isFalse (by intro hh; cases hh)
  | .error _, .ok _ => isFalse (by intro hh; cases hh)

/-- `ChampionScraper._parse_percentage`.  The `except` clause catches only
`ValueError`/`TypeError`, while `Decimal` raises `decimal.InvalidOperation`
on malformed text, so that exception escapes: the embedding returns it as an
`Except.error`. -/
def champion_parse_percentage (value : List Char) : Except PyErr Rat :=
  if value = [] || pyStrip value = [] || value = ['-'] then .ok 0
  else
    match pyDecimal (removeAll '%' (pyStrip value)) with
    | some d => .ok d
    | none => .error .invalidOperation

/-- `ChampionScraper._parse_integer`: `int(float(...))` with thousands
separators removed; `ValueError` is caught and yields the default. -/
def champion_parse_integer (value : List Char) (d : Int) : Int :=
  if value = [] || pyStrip value = [] || value = ['-'] then d
  else
    match pyFloat (removeAll ',' (pyStrip value)) with
    | some x => pyTrunc x
    | none => d

/-- `ChampionScraper._parse_float`. -/
def champion_parse_float (value : List Char) (d : Rat) : Rat :=
  if value = [] || pyStrip value = [] || value = ['-'] then d
  else ((pyFloat (removeAll ',' (pyStrip value))).getD d)

/-- `ChampionScraper._parse_duration`: `MM:SS` or `HH:MM:SS`; the result is
the `timedelta` expressed in whole seconds; `None` on anything else. -/
def champion_parse_duration (value : List Char) : Option Int :=
  if value = [] || pyStrip value = [] || value = ['-'] then none
  else
    match splitOnChar ':' (pyStrip value) with
    | [m, s] => do
      let mv ← pyInt m
      let sv ← pyInt s
      pure (mv * 60 + sv)
    | [h, m, s] => do
      let hv ← pyInt h
      let mv ← pyInt m
      let sv ← pyInt s
      pure (hv * 3600 + mv * 60 + sv)
    | _ => none

/-- `TeamScraper._parse_int`. -/
def team_parse_int (value : List Char) (d : Int) : Int :=
  let cleaned := removeAll ',' (pyStrip value)
  if cleaned = [] || cleaned = ['-'] then d
  else
    match pyFloat cleaned with
    | some x => pyTrunc x
    | none => d

/-- `TeamScraper._parse_float`. -/
def team_parse_float (value : List Char) (d : Rat) : Rat :=
  let cleaned := removeAll ',' (pyStrip value)
  if cleaned = [] || cleaned = ['-'] then d
  else (pyFloat cleaned).getD d

/-- `TeamScraper._parse_percent`: unlike the champion version this catches
`decimal.InvalidOperation`, so it is total and falls back to `0.00`. -/
def team_parse_percent (value : List Char) : Rat :=
  let cleaned := removeAll ',' (removeAll '%' (pyStrip value))
  if cleaned = [] || cleaned = ['-'] then 0
  else
    match pyDecimal cleaned with
    | some d => d
    | none => 0

/-- `TeamScraper._parse_duration`; result in whole seconds. -/
def team_parse_duration (value : List Char) : Option Int :=
  let cleaned := pyStrip value
  if cleaned = [] || cleaned = ['-'] then none
  else
    match splitOnChar ':' cleaned with
    | [m, s] => do
      let mv ← pyInt m
      let sv ← pyInt s
      pure (mv * 60 + sv)
    | [h, m, s] => do
      let hv ← pyInt h
      let mv ← pyInt m
      let sv ← pyInt s
      pure (hv * 3600 + mv * 60 + sv)
    | _ => none

/-- `MatchScraper._parse_score`: split a score string like `1-0` into the two
teams' integer scores, `(None, None)` when that fails. -/
def parse_score (score_text : List Char) : Option Int × Option Int :=
  let cleaned := pyStrip score_text
  if cleaned = [] then (none, none)
  else
    match splitOnChar '-' (removeAll ' ' cleaned) with
    | [p, q] =>
      match pyInt p, pyInt q with
      | some a, some b => (some a, some b)
      | _, _ => (none, none)
    | _ => (none, none)

example : champion_parse_duration "32:48".toList = some 1968 := by decide
example : champion_parse_duration "abc".toList = none := by decide
example : champion_parse_percentage "abc".toList = .error .invalidOperation := by
  with_unfolding_all rfl
example : champion_parse_percentage "66.67%".toList = .ok (6667 / 100 : Rat) := by
  with_unfolding_all rfl
example : team_parse_percent "250%".toList = 250 := by with_unfolding_all rfl
example : parse_score "1 - 0".toList = (some 1, some 0) := by decide
example : parse_score "1-".toList = (none, none) := by decide

/-! ## HTML document model

Shallow embedding of the slice of BeautifulSoup the scrapers use.  A cell
carries the text `get_text(strip=True)` yields for it (the scrapers' text
cleanup happens inside BeautifulSoup, so the model starts from the cleaned
text) and the first `<a>` child when present. -/

inductive CellTag
  | th
  | td
  deriving DecidableEq

/-- The first `<a>` inside a cell: its (optional) `href` attribute and text. -/
structure CellLink where
  href : Option (List Char)
  text : List Char
  deriving DecidableEq

structure HtmlCell where
  tag : CellTag
  text : List Char
  link : Option CellLink
  deriving DecidableEq

structure TRow where
  cells : List HtmlCell
  deriving DecidableEq

/-- A `<table>`: its `class` tokens, the rows inside an optional `<thead>`,
the rows inside an optional `<tbody>`, and rows directly under the table,
in document order (`thead` first). -/
structure HtmlTable where
  classes : List (List Char)
  thead : Option (List TRow)
  tbody : Option (List TRow)
  rest : List TRow
  deriving DecidableEq

structure HtmlDoc where
  tables : List HtmlTable
  deriving DecidableEq

/-- `table.find_all("tr")`: every row of the table in document order. -/
def HtmlTable.allRows (t : HtmlTable) : List TRow :=
  t.thead.getD [] ++ t.tbody.getD [] ++ t.rest

/-- `soup.find("table", class_=cls)`. -/
def findTableByClass (doc : HtmlDoc) (cls : List Char) : Option HtmlTable :=
  doc.tables.find? (fun t => t.classes.contains cls)

/-- `soup.find_all("table", class_=cls)`. -/
def findAllTablesByClass (doc : HtmlDoc) (cls : List Char) : List HtmlTable :=
  doc.tables.filter (fun t => t.classes.contains cls)

/-- `soup.find("table")`. -/
def findFirstTable (doc : HtmlDoc) : Option HtmlTable :=
  doc.tables.head?

/-- A placeholder cell for positional `getD` lookups that are guarded by a
length check in the embedded code. -/
def dummyCell : HtmlCell := ⟨CellTag.td, [], none⟩

/-! ## TeamScraper table extraction (`team_scraper.py`) -/

/-- An insertion-ordered Python dict with `List Char` keys. -/
abbrev PyDict (α : Type) := List (List Char × α)

/-- Python `d[k] = v`: overwrite in place when the key exists, else append. -/
def dictInsert {α : Type} (k : List Char) (v : α) (d : PyDict α) : PyDict α :=
  if d.any (fun p => p.1 = k) then d.map (fun p => if p.1 = k then (k, v) else p)
  else d ++ [(k, v)]

/-- Python `d.get(k)`. -/
def dictGet {α : Type} (d : PyDict α) (k : List Char) : Option α :=
  (d.find? (fun p => p.1 = k)).map (fun p => p.2)

/-- The coercer named in a `COLUMN_MAPPING` entry. -/
inductive TeamParser
  | pInt
  | pPercent
  | pFloat
  | pDuration
  deriving DecidableEq

/-- A typed cell value produced by `TeamScraper._convert_row_to_stats`. -/
inductive TeamVal
  | s (v : List Char)
  | i (v : Int)
  | f (v : Rat)
  | pc (v : Rat)
  | dur (v : Option Int)
  deriving DecidableEq

/-- Python truthiness of the values stored in a stats dict. -/
def TeamVal.falsy : TeamVal → Bool
  | .s v => v.isEmpty
  | .i n => n = 0
  | .f q => q = 0
  | .pc q => q = 0
  | .dur d => d = none || d = some 0

/-- `TeamScraper.COLUMN_MAPPING`: normalized header → (field name, coercer). -/
def COLUMN_MAPPING : List (List Char × (List Char × Option TeamParser)) := [
  ("name".toList, ("team_name".toList, none)),
  ("season".toList, ("season".toList, none)),
  ("region".toList, ("region".toList, none)),
  ("games".toList, ("games".toList, some .pInt)),
  ("win rate".toList, ("winrate".toList, some .pPercent)),
  ("winrate".toList, ("winrate".toList, some .pPercent)),
  ("k:d".toList, ("kill_death_ratio".toList, some .pFloat)),
  ("gpm".toList, ("gpm".toList, some .pInt)),
  ("gdm".toList, ("gdm".toList, some .pInt)),
  ("game duration".toList, ("game_duration".toList, some .pDuration)),
  ("kills / game".toList, ("kills_per_game".toList, some .pFloat)),
  ("deaths / game".toList, ("deaths_per_game".toList, some .pFloat)),
  ("towers killed".toList, ("towers_killed".toList, some .pFloat)),
  ("towers lost".toList, ("towers_lost".toList, some .pFloat)),
  ("fb%".toList, ("first_blood_percent".toList, some .pPercent)),
  ("ft%".toList, ("first_tower_percent".toList, some .pPercent)),
  ("fos%".toList, ("first_objective_percent".toList, some .pPercent)),
  ("drapg".toList, ("dragons_per_game".toList, some .pFloat)),
  ("dra%".toList, ("dragon_control_percent".toList, some .pPercent)),
  ("vgpg".toList, ("void_grub_per_game".toList, some .pFloat)),
  ("her%".toList, ("herald_percent".toList, some .pPercent)),
  ("atakhan%".toList, ("atakhan_percent".toList, some .pPercent)),
  ("dra@15".toList, ("dragons_at_15".toList, some .pFloat)),
  ("td@15".toList, ("tower_difference_15".toList, some .pFloat)),
  ("gd@15".toList, ("gold_difference_15".toList, some .pInt)),
  ("ppg".toList, ("points_per_game".toList, some .pFloat)),
  ("nashpg".toList, ("nashors_per_game".toList, some .pFloat)),
  ("nash%".toList, ("nashor_percent".toList, some .pPercent)),
  ("csm".toList, ("csm".toList, some .pFloat)),
  ("dpm".toList, ("dpm".toList, some .pInt)),
  ("wpm".toList, ("wards_per_minute".toList, some .pFloat)),
  ("vwpm".toList, ("vision_wards_per_minute".toList, some .pFloat)),
  ("wcpm".toList, ("wards_cleared_per_minute".toList, some .pFloat))]

/-- `self.COLUMN_MAPPING.get(normalized)`. -/
def columnMappingGet (k : List Char) : Option (List Char × Option TeamParser) :=
  (COLUMN_MAPPING.find? (fun p => p.1 = k)).map (fun p => p.2)

/-- Dispatch on the parser name stored in the mapping (default arguments as
at the call sites: `0` / `0.0`). -/
def runTeamParser : TeamParser → List Char → TeamVal
  | .pInt, v => .i (team_parse_int v 0)
  | .pPercent, v => .pc (team_parse_percent v)
  | .pFloat, v => .f (team_parse_float v 0)
  | .pDuration, v => .dur (team_parse_duration v)

/-- `TeamScraper._normalize_header`. -/
def normalize_header (h : List Char) : List Char := pyLower (pyStrip h)

/-- `TeamScraper._convert_row_to_stats`. -/
def convert_row_to_stats (row : PyDict (List Char)) (season_name : Option (List Char)) :
    PyDict TeamVal :=
  let stats := row.foldl (fun st p =>
    match columnMappingGet (normalize_header p.1) with
    | none => st
    | some (field, some pr) => dictInsert field (runTeamParser pr p.2) st
    | some (field, none) => dictInsert field (.s (pyStrip p.2)) st) []
  match season_name with
  | some sn =>
    if sn ≠ [] && ((dictGet stats "season".toList).map TeamVal.falsy).getD true then
      dictInsert "season".toList (.s sn) stats
    else stats
  | none => stats

/-- The header row `_extract_table_data` settles on: the first `<tr>` of the
`<thead>` when one exists, else the table's first `<tr>`. -/
def headerRowOf (t : HtmlTable) : Option TRow :=
  match t.thead with
  | some rs =>
    match rs.head? with
    | some r => some r
    | none => t.allRows.head?
  | none => t.allRows.head?

/-- The body rows `_extract_table_data` iterates: the `<tbody>` rows when a
`<tbody>` exists, else everything after the header row. -/
def bodyRowsOf (t : HtmlTable) : List TRow :=
  match t.tbody with
  | some rs => rs
  | none =>
    let all := t.allRows
    match headerRowOf t with
    | some hr => if all.contains hr then all.drop (all.indexOf hr + 1) else all
    | none => all

/-- The dict key for column `i`: the header text when present and nonempty,
else `column_{i+1}`. -/
def columnKey (headers : List (List Char)) (i : Nat) : List Char :=
  match headers.get? i with
  | some h => if h ≠ [] then h else "column_".toList ++ (Nat.succ i).repr.toList
  | none => "column_".toList ++ (Nat.succ i).repr.toList

/-- Build one row's header-keyed dict of cell texts. -/
def rowDataOf (headers : List (List Char)) (vals : List (List Char)) : PyDict (List Char) :=
  vals.enum.foldl (fun d p => dictInsert (columnKey headers p.1) p.2 d) []

structure TeamTablePayload where
  headers : List (List Char)
  rows : List (PyDict (List Char))
  deriving DecidableEq

structure TeamExtract where
  error : Option String
  table : Option TeamTablePayload
  team_stats : List (PyDict TeamVal)
  deriving DecidableEq

/-- `TeamScraper._extract_table_data`.  The input is the already-parsed
document (`self.parse_html(html)`), `none` when parsing failed. -/
def extract_table_data (docOpt : Option HtmlDoc) (season_name : Option (List Char)) :
    TeamExtract :=
  match docOpt with
  | none => ⟨some "Failed to parse HTML content", none, []⟩
  | some doc =>
    match findTableByClass doc "playerslist".toList with
    | none => ⟨some "No table with class \"playerslist\" found on the page", none, []⟩
    | some table =>
      let headers :=
        match headerRowOf table with
        | some hr => hr.cells.map (fun c => c.text)
        | none => []
      let step := fun (acc : List (PyDict (List Char)) × List (PyDict TeamVal)) (row : TRow) =>
        let tds := row.cells.filter (fun c => c.tag = CellTag.td)
        if tds = [] then acc
        else
          let rd := rowDataOf headers (tds.map (fun c => c.text))
          let st := convert_row_to_stats rd season_name
          (acc.1 ++ [rd], if st ≠ [] then acc.2 ++ [st] else acc.2)
      let folded := (bodyRowsOf table).foldl step ([], [])
      ⟨none, some ⟨headers, folded.1⟩, folded.2⟩

/-! ## TournamentScraper table parsing (`tournament_scraper.py`) -/

structure TournEntry where
  season : Option (List Char)
  name : List Char
  href : List Char
  region : List Char
  last_game : List Char
  deriving DecidableEq

structure TournParse where
  season : Option (List Char)
  tournaments : List TournEntry
  count : Nat
  error : Option String
  deriving DecidableEq

/-- The tournament name taken from a row's name cell: the link's text when a
link is present, else the cell's own text, then stripped. -/
def tournamentRowName (c : HtmlCell) : List Char :=
  pyStrip (match c.link with
    | some l => l.text
    | none => c.text)

/-- The body of the `for row in body.find_all("tr")` loop of
`TournamentScraper._parse_tournament_table`; `none` means `continue`. -/
def parse_tournament_row (season : Option (List Char)) (row : TRow) : Option TournEntry :=
  let cells := row.cells.filter (fun c => c.tag = CellTag.td)
  if cells.length < 7 then none
  else
    let nameCell := cells.getD 1 dummyCell
    let name := tournamentRowName nameCell
    let href :=
      match nameCell.link with
      | some l => pyStrip (l.href.getD [])
      | none => []
    if name = [] then none
    else some ⟨season, name, href, (cells.getD 2 dummyCell).text, (cells.getD 6 dummyCell).text⟩

/-- `TournamentScraper._parse_tournament_table` (the per-file bookkeeping
field `file_name` and the derived `last_game_dates` list, which no claim
touches, are omitted).  The input is the parsed document, `none` when
`parse_html` failed. -/
def parse_tournament_table (docOpt : Option HtmlDoc) (season : Option (List Char)) :
    TournParse :=
  match docOpt with
  | none => ⟨season, [], 0, some "Failed to parse HTML content"⟩
  | some doc =>
    match findFirstTable doc with
    | none => ⟨season, [], 0, some "No <table> element found in HTML content"⟩
    | some table =>
      let body := (table.tbody).getD table.allRows
      let ts := body.foldl (fun acc row =>
        match parse_tournament_row season row with
        | some e => acc ++ [e]
        | none => acc) []
      ⟨season, ts, ts.length, none⟩

/-! ## MatchScraper table parsing (`match_scraper.py`) -/

/-- `urljoin("https://gol.gg", href)` for the hrefs this site serves:
already-absolute URLs pass through, anything else is attached to the host.
Modelled only as far as the claims inspect it. -/
def golJoin (href : List Char) : List Char :=
  if href.take 4 = "http".toList then href else "https://gol.gg".toList ++ href

/-- `django.utils.dateparse.parse_date` on `YYYY-M[M]-D[D]` shaped text,
returning the year, month and day digit groups; the strict calendar
validation (which raises `ValueError` on a well-shaped invalid date) is not
modelled, no claim reaches it. -/
def parse_date_shape (s : List Char) : Option (List Char × List Char × List Char) :=
  match splitOnChar '-' s with
  | [y, m, d] =>
    if y.length = 4 && y.all isPyDigit
        && 1 ≤ m.length && m.length ≤ 2 && m.all isPyDigit
        && 1 ≤ d.length && d.length ≤ 2 && d.all isPyDigit then
      some (y, m, d)
    else none
  | _ => none

/-- Left-pad a digit group with zeros. -/
def padZeros (k : Nat) (s : List Char) : List Char :=
  List.replicate (k - s.length) '0' ++ s

/-- `MatchScraper._normalize_date`: re-render a parsed date in ISO form. -/
def normalize_date (date_text : List Char) : Option (List Char) :=
  let cleaned := pyStrip date_text
  if cleaned = [] then none
  else
    match parse_date_shape cleaned with
    | none => none
    | some (y, m, d) =>
      some (padZeros 4 y ++ '-' :: padZeros 2 m ++ '-' :: padZeros 2 d)

structure MatchRowE where
  match_href : List Char
  match_url : List Char
  team_one_name : List Char
  team_two_name : List Char
  team_one_score : Option Int
  team_two_score : Option Int
  week : List Char
  patch : List Char
  date_text : List Char
  date_iso : Option (List Char)
  team_one_resolved_name : Option (List Char)
  team_two_resolved_name : Option (List Char)
  team_one_id : Option Int
  team_two_id : Option Int
  deriving DecidableEq

/-- `MatchScraper._get_or_create_team`: strip the name, return `None` when it
is blank, else resolve it against the store.  The store round trip is the
`resolver` argument, which yields the id of the (created or found) team; the
resolved team's name is the normalized lookup name. -/
def get_or_create_team (resolver : List Char → Int) (team_name : List Char) :
    Option (Int × List Char) :=
  let normalized := pyStrip team_name
  if normalized = [] then none else some (resolver normalized, normalized)

/-- `MatchScraper._attach_team_objects`. -/
def attach_team_objects (resolver : List Char → Int) (r : MatchRowE) : MatchRowE :=
  let t1 := get_or_create_team resolver r.team_one_name
  let t2 := get_or_create_team resolver r.team_two_name
  { r with
    team_one_id := t1.map (fun p => p.1)
    team_one_resolved_name := t1.map (fun p => p.2)
    team_two_id := t2.map (fun p => p.1)
    team_two_resolved_name := t2.map (fun p => p.2) }

/-- The body of the row loop in `MatchScraper._parse_match_table`; `none`
means `continue`. -/
def parse_match_row (resolver : List Char → Int) (row : TRow) : Option MatchRowE :=
  let cells := row.cells.filter (fun c => c.tag = CellTag.td)
  if cells.length < 7 then none
  else
    let c0 := cells.getD 0 dummyCell
    let raw_href :=
      match c0.link with
      | some l =>
        match l.href with
        | some h => pyStrip h
        | none => []
      | none => []
    let match_url := if raw_href = [] then [] else golJoin raw_href
    let team_one_name := (cells.getD 1 dummyCell).text
    let score_text := (cells.getD 2 dummyCell).text
    let team_two_name := (cells.getD 3 dummyCell).text
    let week := (cells.getD 4 dummyCell).text
    let patch := (cells.getD 5 dummyCell).text
    let date_text := (cells.getD 6 dummyCell).text
    let scores := parse_score score_text
    if team_one_name = [] && team_two_name = [] then none
    else
      some (attach_team_objects resolver
        ⟨raw_href, match_url, team_one_name, team_two_name, scores.1, scores.2,
         week, patch, date_text, normalize_date date_text, none, none, none, none⟩)

structure MatchParse where
  rows : List MatchRowE
  headers : List (List Char)
  error : Option String
  deriving DecidableEq

/-- `MatchScraper._parse_match_table`.  The input is the parsed document
(`none` when `parse_html` failed); `resolver` stands for the
`Team.objects.get_or_create` round trip. -/
def parse_match_table (resolver : List Char → Int) (docOpt : Option HtmlDoc) : MatchParse :=
  match docOpt with
  | none => ⟨[], [], some "Failed to parse HTML content for match list."⟩
  | some doc =>
    match findTableByClass doc "table_list".toList with
    | none => ⟨[], [], some "No table with class \"table_list\" found on the page."⟩
    | some table =>
      let headerCells := table.allRows.foldl
        (fun acc r => acc ++ r.cells.filter (fun c => c.tag = CellTag.th)) []
      let headers := headerCells.map (fun c => c.text)
      let body := (table.tbody).getD table.allRows
      let rows := body.foldl (fun acc r =>
        match parse_match_row resolver r with
        | some mr => acc ++ [mr]
        | none => acc) []
      ⟨rows, headers,
       if rows = [] then some "No match rows were parsed from the table." else none⟩

/-! ## ChampionScraper row mapping (`champion_scraper.py`) -/

/-- A champion `CandidateRecord`: `lookup = {name}` plus the `defaults`
fields, durations in whole seconds, dates as (year, month, day). -/
structure ChampionRecord where
  name : List Char
  release_date : Nat × Nat × Nat
  primary_damage_type : List Char
  picks : Int
  bans : Int
  prioscore : Rat
  wins : Int
  losses : Int
  winrate : Rat
  KDA : Rat
  avg_bt : Rat
  avg_rp : Rat
  gt : Option Int
  csm : Rat
  dpm : Int
  gpm : Int
  csd_15 : Int
  gd_15 : Int
  xpd_15 : Int
  deriving DecidableEq

/-- The body of the row loop of
`ChampionScraper._parse_table_rows_to_champions`: `ok none` models
`continue`, and an uncaught coercer exception propagates. -/
def buildChampionRow (row : List (List Char)) : Except PyErr (Option ChampionRecord) :=
  if row.length < 17 then .ok none
  else
    let champion_name := pyStrip (row.getD 0 [])
    if champion_name = [] then .ok none
    else do
      let prioscore ← champion_parse_percentage (row.getD 3 [])
      let winrate ← champion_parse_percentage (row.getD 6 [])
      .ok (some
        { name := champion_name
          release_date := (2009, 1, 1)
          primary_damage_type := []
          picks := champion_parse_integer (row.getD 1 []) 0
          bans := champion_parse_integer (row.getD 2 []) 0
          prioscore := prioscore
          wins := champion_parse_integer (row.getD 4 []) 0
          losses := champion_parse_integer (row.getD 5 []) 0
          winrate := winrate
          KDA := champion_parse_float (row.getD 7 []) 0
          avg_bt := champion_parse_float (row.getD 8 []) 0
          avg_rp := champion_parse_float (row.getD 9 []) 0
          gt := champion_parse_duration (row.getD 10 [])
          csm := champion_parse_float (row.getD 11 []) 0
          dpm := champion_parse_integer (row.getD 12 []) 0
          gpm := champion_parse_integer (row.getD 13 []) 0
          csd_15 := champion_parse_integer (row.getD 14 []) 0
          gd_15 := champion_parse_integer (row.getD 15 []) 0
          xpd_15 := champion_parse_integer (row.getD 16 []) 0 })

/-- `ChampionScraper._parse_table_rows_to_champions`. -/
def parse_table_rows_to_champions (table_rows : List (List (List Char))) :
    Except PyErr (List ChampionRecord) :=
  if table_rows.length < 2 then .ok []
  else
    table_rows.tail.foldlM (fun acc row => do
      match ← buildChampionRow row with
      | some r => pure (acc ++ [r])
      | none => pure acc) []

/-! ## Scrape entry points with explicit I/O effects

The network, clock, and filesystem are abstracted into an environment of
pure functions; each scrape call also returns the trace of I/O effects it
performed, so that "reads the file directly, no fetch, no rate-limit sleep"
is a statement about the trace. -/

inductive Effect
  | rateLimit
  | fetch (url : List Char)
  | readFile (path : List Char)
  deriving DecidableEq

structure FetchEnv where
  scraperDir : List Char
  fileExists : List Char → Bool
  readFileContent : List Char → Option (List Char)
  fetchPage : List Char → Option (List Char)
  parseHtml : List Char → Option HtmlDoc

/-- `pathlib.Path.is_absolute` on POSIX paths. -/
def isAbsolutePath (p : List Char) : Bool :=
  match p with
  | '/' :: _ => true
  | _ => false

/-- `scraper_dir / path` resolution: absolute paths pass through, relative
ones are joined onto the scraper's directory. -/
def resolveAgainst (dir p : List Char) : List Char :=
  if isAbsolutePath p then p else dir ++ '/' :: p

/-- `BaseScraper.fetch_page`: a rate-limit sleep, then a GET; the response
text, or `None` on a request failure. -/
def fetch_page (env : FetchEnv) (url : List Char) : Option (List Char) × List Effect :=
  (env.fetchPage url, [Effect.rateLimit, Effect.fetch url])

/-- A scrape result payload, restricted to the fields the claims inspect
(the champion payload's link/image/debug metadata is not modelled). -/
inductive ChampionPayload
  | errorPayload (msg : List Char)
  | dataPayload (source : List Char) (fromFile : Bool)
      (playersList_data : List (List (List (List Char))))
      (champions_data : List ChampionRecord)
  deriving DecidableEq

/-- The tail of `ChampionScraper.scrape` once HTML content is in hand:
parse, collect the `playerslist` tables, and map their rows to champion
records.  An uncaught coercer exception propagates out of `scrape`. -/
def championScrapeBody (env : FetchEnv) (content : List Char) (source : List Char)
    (fromFile : Bool) : Except PyErr (List ChampionPayload) :=
  match env.parseHtml content with
  | none => .ok [.errorPayload "Failed to parse HTML content".toList]
  | some doc =>
    let tables := findAllTablesByClass doc "playerslist".toList
    let datas := (tables.map (fun t =>
      t.allRows.foldl (fun acc r =>
        let cells := r.cells.map (fun c => c.text)
        if cells = [] then acc else acc ++ [cells]) [])).filter (fun rs => rs ≠ [])
    match datas.foldlM (fun acc tr => do
        let cs ← parse_table_rows_to_champions tr
        pure (acc ++ cs)) ([] : List ChampionRecord) with
    | .error e => .error e
    | .ok champs => .ok [.dataPayload source fromFile datas champs]

/-- `ChampionScraper.scrape`: explicit `file_path` takes precedence, then a
`source_url` that resolves to an existing file is read locally, else it is
fetched over the network. -/
def championScrape (env : FetchEnv) (source_url : Option (List Char))
    (file_path : Option (List Char)) : Except PyErr (List ChampionPayload) × List Effect :=
  match file_path with
  | some fp =>
    let resolved := resolveAgainst env.scraperDir fp
    if env.fileExists resolved then
      match env.readFileContent resolved with
      | some content =>
        (championScrapeBody env content resolved true, [Effect.readFile resolved])
      | none => (.ok [.errorPayload "Failed to read file".toList], [Effect.readFile resolved])
    else (.ok [.errorPayload "File not found".toList], [])
  | none =>
    match source_url with
    | some su =>
      let resolved := resolveAgainst env.scraperDir su
      if env.fileExists resolved then
        match env.readFileContent resolved with
        | some content =>
          (championScrapeBody env content su true, [Effect.readFile resolved])
        | none => (.ok [.errorPayload "Failed to read file".toList], [Effect.readFile resolved])
      else
        match fetch_page env su with
        | (none, effs) => (.ok [.errorPayload "Failed to fetch".toList], effs)
        | (some text, effs) => (championScrapeBody env text su false, effs)
    | none => (.ok [.errorPayload "No source_url or file_path provided".toList], [])

structure TeamPayload where
  error : Option String
  source_url : Option (List Char)
  table : Option TeamTablePayload
  team_stats : List (PyDict TeamVal)
  deriving DecidableEq

/-- `TeamScraper.scrape`: requires a `source_url` and always fetches it over
the network (there is no local-file branch in this scraper). -/
def teamScrape (env : FetchEnv) (source_url : Option (List Char))
    (season_name : Option (List Char)) : List TeamPayload × List Effect :=
  match source_url with
  | none => ([⟨some "source_url is required", none, none, []⟩], [])
  | some su =>
    match fetch_page env su with
    | (none, effs) => ([⟨some "Failed to fetch", some su, none, []⟩], effs)
    | (some text, effs) =>
      let td := extract_table_data (env.parseHtml text) season_name
      match td.error with
      | some e => ([⟨some e, some su, none, []⟩], effs)
      | none => ([⟨none, some su, td.table, td.team_stats⟩], effs)

/-- `PatchScraper.scrape`: an unimplemented stub returning an empty list. -/
def patchScrape (_source_url : Option (List Char)) : List ChampionPayload := []

/-- `GameScraper.scrape`: an unimplemented stub returning an empty list. -/
def gameScrape (_source_url : Option (List Char)) : List ChampionPayload := []

/-! ## Persistence: update-or-create and counting (`base.py`)

The store is a list of (lookup key, defaults) rows; Django's
`update_or_create` becomes: replace the matching row's defaults, else
append a fresh row. -/

structure CandidateRecord (K V : Type) where
  lookup : K
  defaults : V
  deriving DecidableEq

/-- `Model.objects.update_or_create(**lookup, defaults=...)` on the
fault-free path: the second component is the `created` flag. -/
def update_or_create {K V : Type} [DecidableEq K] (store : List (K × V)) (k : K) (v : V) :
    List (K × V) × Bool :=
  if store.any (fun p => p.1 = k) then
    (store.map (fun p => if p.1 = k then (k, v) else p), false)
  else (store ++ [(k, v)], true)

/-- One iteration of `save_to_database`'s loop: upsert the record and bump
the created or updated counter. -/
def saveStep {K V : Type} [DecidableEq K] (acc : Nat × Nat × List (K × V))
    (r : CandidateRecord K V) : Nat × Nat × List (K × V) :=
  match update_or_create acc.2.2 r.lookup r.defaults with
  | (st, true) => (acc.1 + 1, acc.2.1, st)
  | (st, false) => (acc.1, acc.2.1 + 1, st)

/-- `BaseScraper.save_to_database` on the fault-free path: upsert every
record, counting created vs updated; returns (created, updated, store). -/
def save_to_database {K V : Type} [DecidableEq K] (data : List (CandidateRecord K V))
    (store : List (K × V)) : Nat × Nat × List (K × V) :=
  data.foldl saveStep (0, 0, store)

/-! ## Persistence: transaction structure and fault behaviour

A saver's write behaviour is embedded as a small program: single writes,
sequencing, a per-item `try/except Exception` (`catchAll`), and
`transaction.atomic` blocks.  `runProg` injects a hard storage fault at the
`faultAt`-th write overall and returns the writes that end up committed,
the next write index, and whether an exception escaped. -/

inductive Prog (α : Type)
  | skip
  | write (op : α)
  | seq (p q : Prog α)
  | catchAll (p : Prog α)
  | atomicBlock (p : Prog α)

def runProg {α : Type} (faultAt : Option Nat) : Prog α → Nat → List α × Nat × Bool
  | .skip, n => ([], n, false)
  | .write op, n => if faultAt = some n then ([], n + 1, true) else ([op], n + 1, false)
  | .seq p q, n =>
    match runProg faultAt p n with
    | (l1, n1, true) => (l1, n1, true)
    | (l1, n1, false) =>
      match runProg faultAt q n1 with
      | (l2, n2, f2) => (l1 ++ l2, n2, f2)
  | .catchAll p, n =>
    match runProg faultAt p n with
    | (l, n1, _) => (l, n1, false)
  | .atomicBlock p, n =>
    match runProg faultAt p n with
    | (l, n1, false) => (l, n1, false)
    | (_, n1, true) => ([], n1, true)

/-- `BaseScraper.save_to_database`'s write structure: each record's
`update_or_create` sits inside its own `try/except Exception`; there is no
enclosing transaction. -/
def baseSaveProg {α : Type} (data : List α) : Prog α :=
  data.foldr (fun r acc => .seq (.catchAll (.write r)) acc) .skip

/-- One parsed team-stats entry as `save_stats_to_database` consumes it
(`payload` stands for the remaining field values it writes). -/
structure StatsEntry where
  team_name : List Char
  season : Option (List Char)
  payload : Nat
  deriving DecidableEq

/-- The database writes of one loop iteration. -/
inductive DbOp
  | seasonGet (name : List Char)
  | teamGet (name : List Char)
  | statsUpsert (team : List Char) (season : List Char) (payload : Nat)
  deriving DecidableEq

/-- `entry.get('season') or season_name` with Python truthiness. -/
def rowSeason (e : StatsEntry) (season_name : Option (List Char)) : List Char :=
  match e.season with
  | some s => if s ≠ [] then s else season_name.getD []
  | none => season_name.getD []

/-- One loop iteration of `save_stats_to_database`: entries without a team
name or season are skipped and write nothing; the others resolve the
season, resolve/update the team, and upsert the stats row. -/
def entryProg (season_name : Option (List Char)) (e : StatsEntry) : Prog DbOp :=
  if e.team_name = [] || rowSeason e season_name = [] then .skip
  else
    .seq (.write (.seasonGet (rowSeason e season_name)))
      (.seq (.write (.teamGet e.team_name))
        (.write (.statsUpsert e.team_name (rowSeason e season_name) e.payload)))

/-- `TeamScraper.save_stats_to_database`'s write structure: one
`transaction.atomic` block around the whole loop. -/
def teamSaveProg (entries : List StatsEntry) (season_name : Option (List Char)) :
    Prog DbOp :=
  .atomicBlock (entries.foldr (fun e acc => .seq (entryProg season_name e) acc) .skip)

/-- The writes `save_stats_to_database` performs for one entry when no fault
occurs. -/
def entryWrites (season_name : Option (List Char)) (e : StatsEntry) : List DbOp :=
  if e.team_name = [] || rowSeason e season_name = [] then []
  else
    [.seasonGet (rowSeason e season_name), .teamGet e.team_name,
     .statsUpsert e.team_name (rowSeason e season_name) e.payload]

/-! ## Basic lemmas about the string primitives -/

theorem dropWhile_eq_self_of_all (p : Char → Bool) (s : List Char)
    (h : ∀ c ∈ s, p c = false) : s.dropWhile p = s := by
  induction s with
  | nil => rfl
  | cons c cs ih =>
    rw [List.dropWhile_cons, if_neg (by simp [h c (by simp)])]

theorem pyStrip_eq_self (s : List Char) (h : ∀ c ∈ s, isPySpace c = false) :
    pyStrip s = s := by
  unfold pyStrip
  rw [dropWhile_eq_self_of_all _ _ h,
    dropWhile_eq_self_of_all _ _ (fun c hc => h c (List.mem_reverse.mp hc)),
    List.reverse_reverse]

theorem takeWhile_append_all (p : Char → Bool) (l r : List Char)
    (h : ∀ c ∈ l, p c = true) : (l ++ r).takeWhile p = l ++ r.takeWhile p := by
  induction l with
  | nil => simp
  | cons c cs ih =>
    simp [List.cons_append, List.takeWhile_cons, h c (by simp),
      ih (fun x hx => h x (by simp [hx]))]

theorem dropWhile_append_all (p : Char → Bool) (l r : List Char)
    (h : ∀ c ∈ l, p c = true) : (l ++ r).dropWhile p = r.dropWhile p := by
  induction l with
  | nil => simp
  | cons c cs ih =>
    simp only [List.cons_append, List.dropWhile_cons, h c (by simp),
      ih (fun x hx => h x (by simp [hx])), if_true]

theorem takeWhile_eq_self_of_all (p : Char → Bool) (l : List Char)
    (h : ∀ c ∈ l, p c = true) : l.takeWhile p = l := by
  have := takeWhile_append_all p l [] h
  simpa using this

theorem dropWhile_eq_nil_of_all (p : Char → Bool) (l : List Char)
    (h : ∀ c ∈ l, p c = true) : l.dropWhile p = [] := by
  have := dropWhile_append_all p l [] h
  simpa using this

theorem filter_eq_self_of_all (p : Char → Bool) (l : List Char)
    (h : ∀ c ∈ l, p c = true) : l.filter p = l := by
  induction l with
  | nil => rfl
  | cons c cs ih =>
    rw [List.filter_cons, if_pos (h c (by simp)), ih (fun x hx => h x (by simp [hx]))]

/-! ## Claim theorems -/

/-- C9: the duration coercer maps "32:48" to 32 minutes 48 seconds,
"1:05:10" to 1 hour 5 minutes 10 seconds, and the unparseable "abc" as well
as the missing sentinels "" and "-" to null — in both the champion and the
team scraper variants. -/
theorem C9_duration_coercer :
    champion_parse_duration "32:48".toList = some (32 * 60 + 48) ∧
    champion_parse_duration "1:05:10".toList = some (1 * 3600 + 5 * 60 + 10) ∧
    champion_parse_duration "abc".toList = none ∧
    champion_parse_duration "".toList = none ∧
    champion_parse_duration "-".toList = none ∧
    team_parse_duration "32:48".toList = some (32 * 60 + 48) ∧
    team_parse_duration "1:05:10".toList = some (1 * 3600 + 5 * 60 + 10) ∧
    team_parse_duration "abc".toList = none ∧
    team_parse_duration "".toList = none ∧
    team_parse_duration "-".toList = none := by decide

/-- C2 (code bug): on malformed numeric text the champion percent coercer
does not fall back to `Decimal("0.00")` — `Decimal` raises
`decimal.InvalidOperation`, which its `except (ValueError, TypeError)`
clause does not catch, so the exception escapes.  The team scraper's
sibling coercer catches `InvalidOperation` and does return the fallback. -/
theorem C2_champion_percent_raises :
    champion_parse_percentage "abc".toList = .error .invalidOperation ∧
    team_parse_percent "abc".toList = 0 := by
  refine ⟨?_, ?_⟩ <;> with_unfolding_all rfl

/-- C10: for every input, the match-score parser returns either
`(None, None)` or two integers, never a mixed pair; and it returns two
integers exactly when the input, after trimming and removing spaces, splits
on "-" into exactly two parts both of which parse as integers. -/
theorem C10_parse_score (s : List Char) :
    (parse_score s = (none, none) ∨ ∃ a b, parse_score s = (some a, some b)) ∧
    ((∃ a b, parse_score s = (some a, some b)) ↔
      ∃ p q, splitOnChar '-' (removeAll ' ' (pyStrip s)) = [p, q]
        ∧ (pyInt p).isSome ∧ (pyInt q).isSome) := by
  unfold parse_score
  by_cases h : pyStrip s = []
  · rw [h]
    constructor
    · exact Or.inl (by simp)
    · simp [removeAll, splitOnChar]
  · simp only [h, if_false, if_neg h]
    rcases hsp : splitOnChar '-' (removeAll ' ' (pyStrip s)) with _ | ⟨p, _ | ⟨q, rest⟩⟩
    · simp [hsp]
    · simp [hsp]
    · cases rest with
      | nil =>
        simp only [hsp]
        cases hp : pyInt p with
        | none => simp [hp, Option.isSome]
        | some a =>
          cases hq : pyInt q with
          | none => simp [hp, hq, Option.isSome]
          | some b =>
            constructor
            · exact Or.inr ⟨a, b, by simp [hp, hq]⟩
            · exact iff_of_true ⟨a, b, by simp [hp, hq]⟩
                ⟨p, q, rfl, by simp [hp], by simp [hq]⟩
      | cons r t => simp [hsp]

/-! ## C3: percent coercers on regex-shaped input -/

/-- The text `digits [. digits] [%]` matched by the spec's regex
`^\d+(\.\d+)?%?$`. -/
def percentText (ip : List Char) (fr : Option (List Char)) (pct : Bool) : List Char :=
  ip ++ (match fr with
    | some f => '.' :: f
    | none => []) ++ (if pct then ['%'] else [])

/-- The number those digit groups write. -/
def percentVal (ip : List Char) (fr : Option (List Char)) : Rat :=
  match fr with
  | none => (digitsVal ip : Rat)
  | some f => (digitsVal ip : Rat) + (digitsVal f : Rat) / (10 : Rat) ^ f.length

theorem isPyDigit_ne (c d : Char) (h : isPyDigit c = true) (hd : isPyDigit d = false) :
    c ≠ d := by
  intro he
  rw [he, hd] at h
  cases h

theorem isPyDigit_not_space (c : Char) (h : isPyDigit c = true) : isPySpace c = false := by
  cases hx : isPySpace c
  · rfl
  · exfalso
    unfold isPySpace at hx
    simp only [Bool.or_eq_true, decide_eq_true_eq] at hx
    rcases hx with ((((h1 | h1) | h1) | h1) | h1) | h1 <;> subst h1 <;>
      exact absurd h (by decide)

theorem removeAll_eq_self (c : Char) (l : List Char) (h : ∀ a ∈ l, a ≠ c) :
    removeAll c l = l := by
  unfold removeAll
  exact filter_eq_self_of_all _ _ (fun a ha => by simp [h a ha])

/-- The middle `. digits` part of a percent text. -/
def fracPart (fr : Option (List Char)) : List Char :=
  match fr with
  | some f => '.' :: f
  | none => []

theorem percentText_chars (ip : List Char) (fr : Option (List Char)) (pct : Bool)
    (hipd : ∀ c ∈ ip, isPyDigit c = true)
    (hfr : ∀ f, fr = some f → ∀ c ∈ f, isPyDigit c = true) :
    ∀ c ∈ percentText ip fr pct, isPyDigit c = true ∨ c = '.' ∨ c = '%' := by
  intro c hc
  unfold percentText at hc
  rcases List.mem_append.mp hc with hc1 | hc2
  · rcases List.mem_append.mp hc1 with hc3 | hc4
    · exact Or.inl (hipd c hc3)
    · cases hf : fr with
      | none => rw [hf] at hc4; cases hc4
      | some f =>
        rw [hf] at hc4
        rcases List.mem_cons.mp hc4 with h5 | h5
        · exact Or.inr (Or.inl h5)
        · exact Or.inl (hfr f hf c h5)
  · cases pct with
    | true =>
      simp only [if_true] at hc2
      rcases List.mem_singleton.mp hc2 with h5
      exact Or.inr (Or.inr h5)
    | false => simp at hc2

theorem percentText_no_space (ip : List Char) (fr : Option (List Char)) (pct : Bool)
    (hipd : ∀ c ∈ ip, isPyDigit c = true)
    (hfr : ∀ f, fr = some f → ∀ c ∈ f, isPyDigit c = true) :
    ∀ c ∈ percentText ip fr pct, isPySpace c = false := by
  intro c hc
  rcases percentText_chars ip fr pct hipd hfr c hc with h | h | h
  · exact isPyDigit_not_space c h
  · rw [h]; decide
  · rw [h]; decide

theorem removeAll_percent_percentText (ip : List Char) (fr : Option (List Char)) (pct : Bool)
    (hipd : ∀ c ∈ ip, isPyDigit c = true)
    (hfr : ∀ f, fr = some f → ∀ c ∈ f, isPyDigit c = true) :
    removeAll '%' (percentText ip fr pct) = ip ++ fracPart fr := by
  unfold percentText removeAll
  rw [List.filter_append, List.filter_append]
  have h1 : ip.filter (fun a => a ≠ '%') = ip :=
    filter_eq_self_of_all _ _ (fun a ha => by
      simp [isPyDigit_ne a '%' (hipd a ha) (by decide)])
  have h2 : (fracPart fr).filter (fun a => a ≠ '%') = fracPart fr := by
    cases hf : fr with
    | none => rfl
    | some f =>
      unfold fracPart
      refine filter_eq_self_of_all _ _ (fun a ha => ?_)
      rcases List.mem_cons.mp ha with h5 | h5
      · rw [h5]; decide
      · simp [isPyDigit_ne a '%' (hfr f hf a h5) (by decide)]
  have h3 : (if pct then ['%'] else []).filter (fun a => a ≠ '%') = [] := by
    cases pct <;> simp
  unfold fracPart at h2
  rw [h1, h2, h3, List.append_nil]
  rfl

theorem decMantissa_digits (ip : List Char) (hip : ip ≠ [])
    (hipd : ∀ c ∈ ip, isPyDigit c = true) :
    decMantissa ip = some ((digitsVal ip : Rat), []) := by
  simp only [decMantissa, takeWhile_eq_self_of_all _ _ hipd,
    dropWhile_eq_nil_of_all _ _ hipd]
  simp [hip]

theorem decMantissa_digits_frac (ip f : List Char) (hip : ip ≠ [])
    (hipd : ∀ c ∈ ip, isPyDigit c = true) (hfd : ∀ c ∈ f, isPyDigit c = true) :
    decMantissa (ip ++ '.' :: f)
      = some ((digitsVal ip : Rat) + (digitsVal f : Rat) / (10 : Rat) ^ f.length, []) := by
  simp only [decMantissa, takeWhile_append_all _ _ _ hipd, dropWhile_append_all _ _ _ hipd,
    List.takeWhile_cons, List.dropWhile_cons, (by decide : isPyDigit '.' = false),
    Bool.false_eq_true, if_false, List.append_nil,
    takeWhile_eq_self_of_all _ _ hfd, dropWhile_eq_nil_of_all _ _ hfd]
  simp [hip]

theorem pyDecimal_digits (ip : List Char) (fr : Option (List Char))
    (hip : ip ≠ []) (hipd : ∀ c ∈ ip, isPyDigit c = true)
    (hfr : ∀ f, fr = some f → ∀ c ∈ f, isPyDigit c = true) :
    pyDecimal (ip ++ fracPart fr) = some (percentVal ip fr) := by
  obtain ⟨c0, ip0, rfl⟩ := List.exists_cons_of_ne_nil hip
  have hc0 : isPyDigit c0 = true := hipd c0 (by simp)
  have hns : ∀ c ∈ (c0 :: ip0) ++ fracPart fr, isPySpace c = false := by
    intro c hc
    rcases List.mem_append.mp hc with h | h
    · exact isPyDigit_not_space c (hipd c h)
    · cases hf : fr with
      | none => rw [hf] at h; cases h
      | some f =>
        rw [hf] at h
        rcases List.mem_cons.mp h with h5 | h5
        · rw [h5]; decide
        · exact isPyDigit_not_space c (hfr f hf c h5)
  have hsign : parseSign ((c0 :: ip0) ++ fracPart fr) = (false, (c0 :: ip0) ++ fracPart fr) := by
    rw [List.cons_append]
    simp only [parseSign]
    rw [if_neg (isPyDigit_ne c0 '-' hc0 (by decide)),
      if_neg (isPyDigit_ne c0 '+' hc0 (by decide))]
  cases fr with
  | none =>
    simp only [fracPart, List.append_nil] at hns hsign ⊢
    simp only [pyDecimal, pyStrip_eq_self _ hns, hsign, decMantissa_digits _ hip hipd]
    simp [percentVal]
  | some f =>
    have hfd : ∀ c ∈ f, isPyDigit c = true := hfr f rfl
    simp only [fracPart] at hns hsign ⊢
    simp only [pyDecimal, pyStrip_eq_self _ hns, hsign,
      decMantissa_digits_frac _ _ hip hipd hfd]
    simp [percentVal]

/-- C3 (amended): for every input matching the regex `^\d+(\.\d+)?%?$`, both
percent coercers return the decimal value written by the digits unchanged
(not divided by 100), and the result does not depend on the trailing `%`.
The original claim's assertion that this value lies in [0, 100] fails —
see the counterexample. -/
theorem C3_percent_value_unchanged (ip : List Char) (fr : Option (List Char))
    (hip : ip ≠ []) (hipd : ∀ c ∈ ip, isPyDigit c = true)
    (hfr : ∀ f, fr = some f → ∀ c ∈ f, isPyDigit c = true) (pct : Bool) :
    champion_parse_percentage (percentText ip fr pct) = .ok (percentVal ip fr) ∧
    team_parse_percent (percentText ip fr pct) = percentVal ip fr := by
  have hns := percentText_no_space ip fr pct hipd hfr
  have hstrip : pyStrip (percentText ip fr pct) = percentText ip fr pct :=
    pyStrip_eq_self _ hns
  have hrm : removeAll '%' (percentText ip fr pct) = ip ++ fracPart fr :=
    removeAll_percent_percentText ip fr pct hipd hfr
  have hdec : pyDecimal (ip ++ fracPart fr) = some (percentVal ip fr) :=
    pyDecimal_digits ip fr hip hipd hfr
  obtain ⟨c0, ip0, rfl⟩ := List.exists_cons_of_ne_nil hip
  have hc0 : isPyDigit c0 = true := hipd c0 (by simp)
  have hhead : (percentText (c0 :: ip0) fr pct).head? = some c0 := by
    simp [percentText]
  have hne_nil : percentText (c0 :: ip0) fr pct ≠ [] := by
    intro h
    rw [h] at hhead
    cases hhead
  have hne_dash : percentText (c0 :: ip0) fr pct ≠ ['-'] := by
    intro h
    rw [h] at hhead
    simp only [List.head?_cons, Option.some.injEq] at hhead
    exact isPyDigit_ne c0 '-' hc0 (by decide) hhead.symm
  have hchars : ∀ a ∈ (c0 :: ip0) ++ fracPart fr, isPyDigit a = true ∨ a = '.' := by
    intro a ha
    rcases List.mem_append.mp ha with h | h
    · exact Or.inl (hipd a h)
    · cases hf : fr with
      | none => rw [hf] at h; cases h
      | some f =>
        rw [hf] at h
        rcases List.mem_cons.mp h with h5 | h5
        · exact Or.inr h5
        · exact Or.inl (hfr f hf a h5)
  have hnocomma : removeAll ',' ((c0 :: ip0) ++ fracPart fr) = (c0 :: ip0) ++ fracPart fr :=
    removeAll_eq_self _ _ (fun a ha => by
      rcases hchars a ha with h | h
      · exact isPyDigit_ne a ',' h (by decide)
      · rw [h]; decide)
  have hclean_ne : (c0 :: ip0) ++ fracPart fr ≠ [] := by simp
  have hclean_dash : (c0 :: ip0) ++ fracPart fr ≠ ['-'] := by
    intro h
    rw [List.cons_append] at h
    injection h with h1 _
    exact isPyDigit_ne c0 '-' hc0 (by decide) h1
  constructor
  · simp only [champion_parse_percentage, hstrip, hrm, hdec]
    simp [hne_nil, hne_dash]
  · simp only [team_parse_percent, hstrip, hrm, hnocomma, hdec]
    simp only [List.cons_append] at hclean_dash ⊢
    simp [hclean_dash]

/-- C3 counterexample: the input "250%" matches the spec's regex
`^\d+(\.\d+)?%?$`, both percent coercers return 250 unchanged, and 250 does
not lie in [0, 100]. -/
theorem C3_range_counterexample :
    percentText "250".toList none true = "250%".toList ∧
    champion_parse_percentage "250%".toList = .ok 250 ∧
    team_parse_percent "250%".toList = 250 ∧
    ¬((250 : Rat) ≤ 100) := by
  refine ⟨rfl, ?_, ?_, by norm_num⟩
  · with_unfolding_all rfl
  · with_unfolding_all rfl

/-- Witness for C3: the regex input "66.67%" evaluates to 66.67 through both
coercers. -/
theorem C3_percent_value_unchanged_witness :
    champion_parse_percentage (percentText "66".toList (some "67".toList) true)
      = .ok (percentVal "66".toList (some "67".toList)) ∧
    team_parse_percent (percentText "66".toList (some "67".toList) true)
      = percentVal "66".toList (some "67".toList) :=
  C3_percent_value_unchanged "66".toList (some "67".toList) (by decide) (by decide)
    (by intro f hf c hc; cases hf; revert c hc; decide) true

/-! ## C4: table found vs table empty -/

/-- C4 (amended): the team and tournament table locators distinguish a
document lacking the target table (an error) from one containing the table
but no parsable data rows (no error, empty result, `count = 0`).  The
match-list parser does not make this distinction — see the counterexample,
which shows it reports a present-but-row-less table as an error. -/
theorem C4_table_locator_distinction :
    (∀ (doc : HtmlDoc) (sn : Option (List Char)),
      findTableByClass doc "playerslist".toList = none →
      (extract_table_data (some doc) sn).error
        = some "No table with class \"playerslist\" found on the page") ∧
    (∀ (doc : HtmlDoc) (sn : Option (List Char)) (t : HtmlTable),
      findTableByClass doc "playerslist".toList = some t →
      (extract_table_data (some doc) sn).error = none) ∧
    (∀ (doc : HtmlDoc) (s : Option (List Char)),
      findFirstTable doc = none →
      (parse_tournament_table (some doc) s).error
        = some "No <table> element found in HTML content") ∧
    (∀ (doc : HtmlDoc) (s : Option (List Char)) (t : HtmlTable),
      findFirstTable doc = some t →
      (parse_tournament_table (some doc) s).error = none ∧
      (parse_tournament_table (some doc) s).count
        = (parse_tournament_table (some doc) s).tournaments.length) := by
  refine ⟨?_, ?_, ?_, ?_⟩
  · intro doc sn h
    simp only [extract_table_data]
    rw [h]
  · intro doc sn t h
    simp only [extract_table_data]
    rw [h]
  · intro doc s h
    simp only [parse_tournament_table]
    rw [h]
  · intro doc s t h
    simp only [parse_tournament_table]
    rw [h]
    exact ⟨rfl, rfl⟩

/-- A document with a `table_list` table that has an empty `<tbody>`. -/
def emptyMatchListDoc : HtmlDoc :=
  ⟨[⟨["table_list".toList], none, some [], []⟩]⟩

/-- C4 counterexample: a document containing the `table_list` table with
zero data rows makes the match parser return an error, not
`count=0, error=None`. -/
theorem C4_match_empty_table_is_error :
    findTableByClass emptyMatchListDoc "table_list".toList
        = some ⟨["table_list".toList], none, some [], []⟩ ∧
    (parse_match_table (fun _ => 0) (some emptyMatchListDoc)).rows = [] ∧
    (parse_match_table (fun _ => 0) (some emptyMatchListDoc)).error
        = some "No match rows were parsed from the table." := by
  refine ⟨?_, ?_, ?_⟩ <;> decide

/-- A document with no table at all. -/
def noTableDoc : HtmlDoc := ⟨[]⟩

/-- A `playerslist` table with an empty body. -/
def emptyPlayersListDoc : HtmlDoc := ⟨[⟨["playerslist".toList], none, some [], []⟩]⟩

/-- A classless table with an empty body. -/
def emptyPlainTableDoc : HtmlDoc := ⟨[⟨[], none, some [], []⟩]⟩

/-- Witness for C4 at concrete documents. -/
theorem C4_table_locator_distinction_witness :
    (extract_table_data (some noTableDoc) none).error
      = some "No table with class \"playerslist\" found on the page" ∧
    (extract_table_data (some emptyPlayersListDoc) none).error = none ∧
    (parse_tournament_table (some noTableDoc) none).error
      = some "No <table> element found in HTML content" ∧
    ((parse_tournament_table (some emptyPlainTableDoc) none).error = none ∧
     (parse_tournament_table (some emptyPlainTableDoc) none).count
       = (parse_tournament_table (some emptyPlainTableDoc) none).tournaments.length) :=
  ⟨C4_table_locator_distinction.1 noTableDoc none (by decide),
   C4_table_locator_distinction.2.1 emptyPlayersListDoc none
     ⟨["playerslist".toList], none, some [], []⟩ (by decide),
   C4_table_locator_distinction.2.2.1 noTableDoc none (by decide),
   C4_table_locator_distinction.2.2.2 emptyPlainTableDoc none
     ⟨[], none, some [], []⟩ (by decide)⟩

/-! ## C8: blank natural-key rows -/

/-- C8 (amended): the champion and tournament row mappers reject any row
whose natural-key cell is blank after trimming — no record is emitted for
it.  The team row mapper does not: it emits the stats record with a blank
`team_name` (rejection is deferred to `save_stats_to_database`) — see the
counterexample. -/
theorem C8_blank_key_rows_rejected :
    (∀ row : List (List Char), pyStrip (row.getD 0 []) = [] →
      buildChampionRow row = .ok none) ∧
    (∀ (season : Option (List Char)) (row : TRow),
      tournamentRowName
          ((row.cells.filter (fun c => c.tag = CellTag.td)).getD 1 dummyCell) = [] →
      parse_tournament_row season row = none) := by
  constructor
  · intro row h
    unfold buildChampionRow
    split
    · rfl
    · rw [h]
      simp
  · intro season row h
    simp only [parse_tournament_row]
    split
    · rfl
    · rfl

/-- A `playerslist` table whose single body row has a blank team-name
cell. -/
def blankNameTeamDoc : HtmlDoc :=
  ⟨[⟨["playerslist".toList],
     some [⟨[⟨CellTag.th, "Name".toList, none⟩]⟩],
     some [⟨[⟨CellTag.td, [], none⟩]⟩], []⟩]⟩

/-- C8 counterexample: the team mapper emits a stats record whose
`team_name` field is blank for a row whose name cell is blank. -/
theorem C8_team_blank_name_emitted :
    (extract_table_data (some blankNameTeamDoc) none).team_stats
      = [[("team_name".toList, TeamVal.s [])]] := by decide

/-- Witness for C8 at concrete blank-key rows. -/
theorem C8_blank_key_rows_rejected_witness :
    buildChampionRow (List.replicate 17 " ".toList) = .ok none ∧
    parse_tournament_row none ⟨List.replicate 7 (⟨CellTag.td, [], none⟩ : HtmlCell)⟩ = none :=
  ⟨C8_blank_key_rows_rejected.1 _ (by decide),
   C8_blank_key_rows_rejected.2 none _ (by decide)⟩

/-! ## C6 and C7: scrape payload counts and local-file effect traces -/

theorem championScrapeBody_ok_length (env : FetchEnv) (content source : List Char)
    (fromFile : Bool) (res : List ChampionPayload)
    (h : championScrapeBody env content source fromFile = .ok res) : res.length = 1 := by
  unfold championScrapeBody at h
  split at h
  · cases h
    rfl
  · dsimp only at h
    split at h
    · exact Except.noConfusion h
    · cases h
      rfl

theorem championScrape_ok_length (env : FetchEnv) (su fp : Option (List Char))
    (res : List ChampionPayload) (h : (championScrape env su fp).1 = .ok res) :
    res.length = 1 := by
  cases fp with
  | some p =>
    simp only [championScrape] at h
    by_cases he : env.fileExists (resolveAgainst env.scraperDir p) = true
    · rw [if_pos he] at h
      rcases hr : env.readFileContent (resolveAgainst env.scraperDir p) with _ | content
      · rw [hr] at h
        cases h
        rfl
      · rw [hr] at h
        exact championScrapeBody_ok_length env content _ true res h
    · rw [if_neg he] at h
      cases h
      rfl
  | none =>
    cases su with
    | none =>
      simp only [championScrape] at h
      cases h
      rfl
    | some u =>
      simp only [championScrape] at h
      by_cases he : env.fileExists (resolveAgainst env.scraperDir u) = true
      · rw [if_pos he] at h
        rcases hr : env.readFileContent (resolveAgainst env.scraperDir u) with _ | content
        · rw [hr] at h
          cases h
          rfl
        · rw [hr] at h
          exact championScrapeBody_ok_length env content _ true res h
      · rw [if_neg he] at h
        simp only [fetch_page] at h
        rcases hf : env.fetchPage u with _ | text
        · rw [hf] at h
          cases h
          rfl
        · rw [hf] at h
          exact championScrapeBody_ok_length env text _ false res h

/-- C6 (amended): the champion scraper returns a one-payload list whenever
its `scrape` returns at all (a malformed percent cell can raise, see C2),
and the team scraper always returns a one-payload list; but the
unimplemented patch and game scraper stubs return an empty list, not a
one-payload list — see the counterexample. -/
theorem C6_scrape_payload_counts :
    (∀ (env : FetchEnv) (su fp : Option (List Char)) (res : List ChampionPayload),
      (championScrape env su fp).1 = .ok res → res.length = 1) ∧
    (∀ (env : FetchEnv) (su sn : Option (List Char)),
      ((teamScrape env su sn).1).length = 1) ∧
    (∀ su, patchScrape su = []) ∧
    (∀ su, gameScrape su = []) := by
  refine ⟨championScrape_ok_length, ?_, fun _ => rfl, fun _ => rfl⟩
  intro env su sn
  cases su with
  | none => rfl
  | some u =>
    simp only [teamScrape, fetch_page]
    rcases hf : env.fetchPage u with _ | text
    · rfl
    · rcases he : (extract_table_data (env.parseHtml text) sn).error with _ | e <;> simp [he]

/-- C6 counterexample: the patch and game scraper stubs return an empty
list, not a list containing exactly one result payload. -/
theorem C6_stub_scrapers_empty :
    (patchScrape (some "https://example.org".toList)).length ≠ 1 ∧
    (gameScrape (some "https://example.org".toList)).length ≠ 1 := by decide

/-- An environment with no reachable files or network. -/
def env0 : FetchEnv := ⟨[], fun _ => false, fun _ => none, fun _ => none, fun _ => none⟩

/-- Witness for C6: the champion part applied at a concrete environment. -/
theorem C6_scrape_payload_counts_witness :
    ([ChampionPayload.errorPayload "No source_url or file_path provided".toList]).length = 1 :=
  C6_scrape_payload_counts.1 env0 none none
    [ChampionPayload.errorPayload "No source_url or file_path provided".toList] rfl

/-- C7 (amended): when the champion scraper's source (explicit `file_path`
or a `source_url` that is a path) resolves to an existing local file, its
entire effect trace is one local file read: no network fetch and no
rate-limit sleep.  The team scraper has no local-file branch and always
fetches — see the counterexample. -/
theorem C7_local_file_bypasses_network (env : FetchEnv) (p : List Char)
    (h : env.fileExists (resolveAgainst env.scraperDir p) = true) :
    (championScrape env none (some p)).2
      = [Effect.readFile (resolveAgainst env.scraperDir p)] ∧
    (championScrape env (some p) none).2
      = [Effect.readFile (resolveAgainst env.scraperDir p)] := by
  constructor <;>
  · simp only [championScrape]
    rw [if_pos h]
    rcases hr : env.readFileContent (resolveAgainst env.scraperDir p) with _ | content <;>
      simp [hr]

/-- An environment in which every path is an existing readable file. -/
def envAllFiles : FetchEnv :=
  ⟨[], fun _ => true, fun _ => some [], fun _ => some [], fun _ => none⟩

/-- C7 counterexample: the team scraper's source resolves to an existing
local file, yet its trace still contains the rate-limit sleep and the
network fetch. -/
theorem C7_team_always_fetches :
    envAllFiles.fileExists (resolveAgainst envAllFiles.scraperDir "saved.html".toList) = true ∧
    Effect.rateLimit ∈ (teamScrape envAllFiles (some "saved.html".toList) none).2 ∧
    Effect.fetch "saved.html".toList
      ∈ (teamScrape envAllFiles (some "saved.html".toList) none).2 := by
  refine ⟨rfl, ?_, ?_⟩ <;> decide

/-- Witness for C7 at a concrete environment. -/
theorem C7_local_file_bypasses_network_witness :
    (championScrape envAllFiles none (some "saved.html".toList)).2
        = [Effect.readFile (resolveAgainst envAllFiles.scraperDir "saved.html".toList)] ∧
    (championScrape envAllFiles (some "saved.html".toList) none).2
        = [Effect.readFile (resolveAgainst envAllFiles.scraperDir "saved.html".toList)] :=
  C7_local_file_bypasses_network envAllFiles "saved.html".toList rfl

/-! ## C1: idempotence of the upsert loop -/

theorem update_or_create_fresh {K V : Type} [DecidableEq K] (store : List (K × V))
    (k : K) (v : V) (h : ∀ p ∈ store, p.1 ≠ k) :
    update_or_create store k v = (store ++ [(k, v)], true) := by
  have hany : store.any (fun p => p.1 = k) = false := by
    rw [List.any_eq_false]
    intro p hp
    simp [h p hp]
  unfold update_or_create
  rw [hany]
  simp

theorem map_update_id_of_no_key {K V : Type} [DecidableEq K] (store : List (K × V))
    (k : K) (v : V) (h : ∀ p ∈ store, p.1 ≠ k) :
    store.map (fun p => if p.1 = k then (k, v) else p) = store := by
  induction store with
  | nil => rfl
  | cons p rest ih =>
    simp only [List.map_cons, if_neg (h p (by simp)),
      ih (fun q hq => h q (by simp [hq]))]

theorem map_update_id {K V : Type} [DecidableEq K] (store : List (K × V)) (k : K) (v : V)
    (hmem : (k, v) ∈ store) (hnd : (store.map Prod.fst).Nodup) :
    store.map (fun p => if p.1 = k then (k, v) else p) = store := by
  induction store with
  | nil => rfl
  | cons p rest ih =>
    rw [List.map_cons, List.nodup_cons] at hnd
    rcases List.mem_cons.mp hmem with h | h
    · have hp : p = (k, v) := h.symm
      subst hp
      have hrest : ∀ q ∈ rest, q.1 ≠ k := by
        intro q hq he
        apply hnd.1
        have hqm : q.1 ∈ rest.map Prod.fst := List.mem_map_of_mem Prod.fst hq
        rw [he] at hqm
        exact hqm
      rw [List.map_cons, if_pos rfl, map_update_id_of_no_key rest k v hrest]
    · have hkrest : k ∈ rest.map Prod.fst := by
        have := List.mem_map_of_mem Prod.fst h
        simpa using this
      have hpk : p.1 ≠ k := fun he => hnd.1 (he ▸ hkrest)
      rw [List.map_cons, if_neg hpk, ih h hnd.2]

theorem saveFold_all_fresh {K V : Type} [DecidableEq K] :
    ∀ (data : List (CandidateRecord K V)) (c u : Nat) (store : List (K × V)),
      (∀ r ∈ data, ∀ p ∈ store, p.1 ≠ r.lookup) →
      (data.map (fun r => r.lookup)).Nodup →
      data.foldl saveStep (c, u, store)
        = (c + data.length, u, store ++ data.map (fun r => (r.lookup, r.defaults))) := by
  intro data
  induction data with
  | nil =>
    intro c u store _ _
    simp
  | cons r rest ih =>
    intro c u store hfresh hnd
    rw [List.map_cons, List.nodup_cons] at hnd
    rw [List.foldl_cons]
    have hstep : saveStep (c, u, store) r = (c + 1, u, store ++ [(r.lookup, r.defaults)]) := by
      unfold saveStep
      rw [update_or_create_fresh store r.lookup r.defaults (hfresh r (by simp))]
    rw [hstep]
    rw [ih (c + 1) u (store ++ [(r.lookup, r.defaults)]) ?_ hnd.2]
    · have hlen : c + 1 + rest.length = c + (rest.length + 1) := by omega
      simp [hlen]
    · intro q hq p hp
      rcases List.mem_append.mp hp with hp1 | hp2
      · exact hfresh q (by simp [hq]) p hp1
      · rcases List.mem_singleton.mp hp2 with rfl
        intro he
        apply hnd.1
        have hqm : q.lookup ∈ rest.map (fun r => r.lookup) := List.mem_map_of_mem _ hq
        rw [← he] at hqm
        exact hqm

theorem saveFold_all_existing {K V : Type} [DecidableEq K] :
    ∀ (data : List (CandidateRecord K V)) (c u : Nat) (store : List (K × V)),
      (∀ r ∈ data, (r.lookup, r.defaults) ∈ store) →
      (store.map Prod.fst).Nodup →
      data.foldl saveStep (c, u, store) = (c, u + data.length, store) := by
  intro data
  induction data with
  | nil =>
    intro c u store _ _
    simp
  | cons r rest ih =>
    intro c u store hmem hnd
    rw [List.foldl_cons]
    have hany : store.any (fun p => p.1 = r.lookup) = true := by
      rw [List.any_eq_true]
      exact ⟨(r.lookup, r.defaults), hmem r (by simp), by simp⟩
    have hstep : saveStep (c, u, store) r = (c, u + 1, store) := by
      unfold saveStep update_or_create
      rw [hany]
      simp only [if_true]
      rw [map_update_id store r.lookup r.defaults (hmem r (by simp)) hnd]
    rw [hstep, ih c (u + 1) store (fun q hq => hmem q (by simp [hq])) hnd]
    have : u + 1 + rest.length = u + (rest.length + 1) := by omega
    simp [this]

/-- C1 (amended): for every batch whose lookups are pairwise distinct,
running the upsert routine twice against an initially empty store yields
created=N, updated=0 on the first run and created=0, updated=N on the
second, and the stored values after the second run equal those after the
first.  (With a duplicated lookup inside one batch the first run already
counts an update — see the counterexample.) -/
theorem C1_idempotent_upsert {K V : Type} [DecidableEq K]
    (data : List (CandidateRecord K V))
    (hnd : (data.map (fun r => r.lookup)).Nodup) :
    (save_to_database data ([] : List (K × V))).1 = data.length ∧
    (save_to_database data ([] : List (K × V))).2.1 = 0 ∧
    (save_to_database data (save_to_database data ([] : List (K × V))).2.2).1 = 0 ∧
    (save_to_database data (save_to_database data ([] : List (K × V))).2.2).2.1
      = data.length ∧
    (save_to_database data (save_to_database data ([] : List (K × V))).2.2).2.2
      = (save_to_database data ([] : List (K × V))).2.2 := by
  have h1 : save_to_database data ([] : List (K × V))
      = (data.length, 0, data.map (fun r => (r.lookup, r.defaults))) := by
    unfold save_to_database
    rw [saveFold_all_fresh data 0 0 [] (by simp) hnd]
    simp
  have hkeys : ((data.map (fun r => (r.lookup, r.defaults))).map Prod.fst).Nodup := by
    rw [List.map_map]
    simpa [Function.comp] using hnd
  have hmem : ∀ r ∈ data,
      (r.lookup, r.defaults) ∈ data.map (fun r => (r.lookup, r.defaults)) :=
    fun r hr => List.mem_map_of_mem _ hr
  have h2 : save_to_database data (data.map (fun r => (r.lookup, r.defaults)))
      = (0, data.length, data.map (fun r => (r.lookup, r.defaults))) := by
    unfold save_to_database
    rw [saveFold_all_existing data 0 0 _ hmem hkeys]
    simp
  simp [h1, h2]

/-- C1 counterexample: a batch of two candidate records sharing one lookup;
the first run against the empty store yields created=1, updated=1, not
created=2, updated=0. -/
theorem C1_duplicate_lookup_counterexample :
    (save_to_database [⟨0, 10⟩, ⟨0, 20⟩] ([] : List (Nat × Nat))).1 = 1 ∧
    (save_to_database [⟨0, 10⟩, ⟨0, 20⟩] ([] : List (Nat × Nat))).2.1 = 1 ∧
    ¬((save_to_database [⟨0, 10⟩, ⟨0, 20⟩] ([] : List (Nat × Nat))).1 = 2 ∧
      (save_to_database [⟨0, 10⟩, ⟨0, 20⟩] ([] : List (Nat × Nat))).2.1 = 0) := by
  decide

/-! ## C5: transaction structure under faults -/

theorem baseSaveProg_cons {α : Type} (r : α) (rest : List α) :
    baseSaveProg (r :: rest) = .seq (.catchAll (.write r)) (baseSaveProg rest) := rfl

theorem runProg_entryProg (sn : Option (List Char)) (e : StatsEntry) (n : Nat) :
    runProg none (entryProg sn e) n = (entryWrites sn e, n + (entryWrites sn e).length, false) := by
  unfold entryProg entryWrites
  by_cases h : (e.team_name = [] || rowSeason e sn = []) = true
  · rw [if_pos h, if_pos h]
    simp [runProg]
  · rw [if_neg h, if_neg h]
    simp [runProg]

theorem runProg_entriesFold (sn : Option (List Char)) :
    ∀ (entries : List StatsEntry) (n : Nat), ∃ n1,
      runProg none (entries.foldr (fun e acc => .seq (entryProg sn e) acc) .skip) n
        = ((entries.map (entryWrites sn)).flatten, n1, false) := by
  intro entries
  induction entries with
  | nil =>
    intro n
    exact ⟨n, rfl⟩
  | cons e rest ih =>
    intro n
    obtain ⟨n1, h1⟩ := ih (n + (entryWrites sn e).length)
    refine ⟨n1, ?_⟩
    rw [List.foldr_cons]
    show runProg none (.seq (entryProg sn e) _) n = _
    unfold runProg
    rw [runProg_entryProg sn e n]
    simp [h1]

/-- C5 (amended): the team saver wraps its whole batch in one
`transaction.atomic` block — when a hard storage fault escapes, nothing of
the batch is committed, and on the fault-free path every non-skipped
entry's writes commit.  `BaseScraper.save_to_database` instead has no
transaction and catches each record's exception individually, so it always
runs the batch to completion — but records written before a fault stay
committed, see the counterexample. -/
theorem C5_transaction_structure :
    (∀ (entries : List StatsEntry) (sn : Option (List Char)) (fa : Option Nat)
        (n : Nat) (l : List DbOp) (n1 : Nat),
      runProg fa (teamSaveProg entries sn) n = (l, n1, true) → l = []) ∧
    (∀ (entries : List StatsEntry) (sn : Option (List Char)) (n : Nat), ∃ n1,
      runProg none (teamSaveProg entries sn) n
        = ((entries.map (entryWrites sn)).flatten, n1, false)) ∧
    (∀ (α : Type) (data : List α) (fa : Option Nat) (n : Nat),
      (runProg fa (baseSaveProg data) n).2.2 = false) := by
  refine ⟨?_, ?_, ?_⟩
  · intro entries sn fa n l n1 h
    unfold teamSaveProg at h
    unfold runProg at h
    rcases hr : runProg fa
        (entries.foldr (fun e acc => .seq (entryProg sn e) acc) .skip) n with ⟨l0, n0, b0⟩
    rw [hr] at h
    cases b0
    · simp at h
    · simp at h
      exact h.1
  · intro entries sn n
    obtain ⟨n1, h1⟩ := runProg_entriesFold sn entries n
    refine ⟨n1, ?_⟩
    unfold teamSaveProg
    unfold runProg
    rw [h1]
  · intro α data fa n
    induction data generalizing n with
    | nil => rfl
    | cons r rest ih =>
      rw [baseSaveProg_cons]
      unfold runProg
      rcases h1 : runProg fa (Prog.catchAll (.write r)) n with ⟨l1, k1, b1⟩
      have hb1 : b1 = false := by
        unfold runProg at h1
        rcases h2 : runProg fa (Prog.write r) n with ⟨l2, k2, b2⟩
        rw [h2] at h1
        cases h1
        rfl
      subst hb1
      rcases h2 : runProg fa (baseSaveProg rest) k1 with ⟨l2, k2, b2⟩
      have hb2 : b2 = false := by
        have := ih k1
        rw [h2] at this
        exact this
      subst hb2
      simp [h2]

/-- C5 counterexample: with no transaction around the loop, a hard fault on
the second record of a two-record batch still leaves the first record
committed. -/
theorem C5_base_partial_commit :
    runProg (some 1) (baseSaveProg [(0 : Nat), 1]) 0 = ([0], 2, false) ∧
    ([0] : List Nat) ≠ [] := by decide

/-- Witness for C5: the atomic rollback applied at a one-entry batch with a
fault injected at its first write. -/
theorem C5_transaction_structure_witness : ([] : List DbOp) = [] :=
  C5_transaction_structure.1 [⟨"T".toList, some "S".toList, 0⟩] none (some 0) 0 [] 1
    (by decide)

/-- Witness for C1 at a concrete two-record batch with distinct lookups. -/
theorem C1_idempotent_upsert_witness :
    (save_to_database [⟨0, 10⟩, ⟨1, 20⟩] ([] : List (Nat × Nat))).1 = 2 ∧
    (save_to_database [⟨0, 10⟩, ⟨1, 20⟩] ([] : List (Nat × Nat))).2.1 = 0 ∧
    (save_to_database [⟨0, 10⟩, ⟨1, 20⟩]
      (save_to_database [⟨0, 10⟩, ⟨1, 20⟩] ([] : List (Nat × Nat))).2.2).1 = 0 ∧
    (save_to_database [⟨0, 10⟩, ⟨1, 20⟩]
      (save_to_database [⟨0, 10⟩, ⟨1, 20⟩] ([] : List (Nat × Nat))).2.2).2.1 = 2 ∧
    (save_to_database [⟨0, 10⟩, ⟨1, 20⟩]
      (save_to_database [⟨0, 10⟩, ⟨1, 20⟩] ([] : List (Nat × Nat))).2.2).2.2
      = (save_to_database [⟨0, 10⟩, ⟨1, 20⟩] ([] : List (Nat × Nat))).2.2 :=
  C1_idempotent_upsert [⟨0, 10⟩, ⟨1, 20⟩] (by decide)

end LeagueScraper
